import Mathlib

/-!
Shallow embedding of the Equicord plugin sources:
  src/equicordplugins/aiagent/index.tsx
  src/equicordplugins/exportMessages/index.tsx
  src/equicordplugins/exportFriendNotes/index.tsx

Machine numbers (JS `number` used as integer timestamps, counts, retry
intervals) are modelled as `Int`/`Nat`.  Asynchronous REST calls are
modelled by an oracle `Nat → FetchResp` giving the outcome of the k-th
HTTP request of a run; `setTimeout` sleeps are recorded as data.  The
pagination `while` loop may not terminate (a server can answer 429
forever), so it is embedded with explicit fuel returning `Option`.
-/

namespace Equicord

/-! ### Data model (message shape consumed by the plugins) -/

structure Attachment where
  filename : String
  url : String
deriving DecidableEq, Repr

structure Embed where
  rawTitle : Option String
  rawDescription : Option String
  url : Option String
deriving DecidableEq, Repr

/-- `message.messageReference` / `message.message_reference` shape. -/
structure MsgRef where
  message_id : Option String
  channel_id : String
deriving DecidableEq, Repr

/-- Inline `referenced_message` object; only its `content` is read. -/
structure RefMessage where
  content : String
deriving DecidableEq, Repr

/-- A message as consumed by `fetchMessages` / `formatMessage`.
`ts` is `new Date(message.timestamp.toString()).getTime()`. -/
structure Msg where
  id : String
  ts : Int
  username : String
  discriminator : String
  content : String
  referenced_message : Option RefMessage
  messageReference : Option MsgRef
  message_reference : Option MsgRef
  type : Nat
  attachments : List Attachment
  embeds : List Embed
deriving DecidableEq, Repr

/-- JS `x || d` on an optional numeric value: `0` and `undefined` are falsy. -/
def jsOrNat (o : Option Nat) (d : Nat) : Nat :=
  match o with
  | none => d
  | some x => if x = 0 then d else x

/-- JS truthiness filter for an optional string: `undefined` and `""` are falsy. -/
def truthyStr : Option String → Option String
  | some s => if s = "" then none else some s
  | none => none

/-- JS `arr.slice(-n)` for `n : Nat`: `slice(-0) = slice(0)` is the whole
array, otherwise the last `n` elements. -/
def jsSliceLast (l : List α) (n : Nat) : List α :=
  if n = 0 then l else l.drop (l.length - n)

/-! ### Paginated fetcher (`fetchMessages` in aiagent / exportMessages) -/

/-- Outcome of one `RestAPI.get` page request.  `page` is the response
body (newest first); `rateLimited` is a 429 whose body optionally carries
`retry_after` (seconds); `httpErr` is any other failure caught by the
inner `catch`; `fatal` is an exception that escapes to the outer
`catch` of `fetchMessages`. -/
inductive FetchResp where
  | page (msgs : List Msg)
  | rateLimited (retry_after : Option Nat)
  | httpErr
  | fatal
deriving DecidableEq, Repr

/-- Loop state of `fetchMessages`: the `allMessages` accumulator, the
`beforeId` cursor and the index of the next oracle response. -/
structure LoopState where
  collected : List Msg
  beforeId : Option String
  reqIx : Nat
deriving DecidableEq, Repr

/-- Query parameters of one page request:
`limit = Math.min(100, limit - allMessages.length)` and `before = beforeId`. -/
structure PageReq where
  limit : Nat
  before : Option String
deriving DecidableEq, Repr

def pageReq (limit : Nat) (s : LoopState) : PageReq :=
  ⟨min 100 (limit - s.collected.length), s.beforeId⟩

/-- Sleep on a 429: `(apiError?.body?.retry_after || 5) * 1000` ms. -/
def rateLimitSleepMs (retry_after : Option Nat) : Nat :=
  jsOrNat retry_after 5 * 1000

/-- One iteration body of the `while` loop (after the `length < limit`
test): issue the request, then either extend the state (page), retry with
an unchanged cursor (429), end pagination (empty page / other error) or
abort to the outer catch (fatal).  The recorded `Nat` is the sleep in ms
(fixed 200 ms inter-page delay in the aiagent variant). -/
inductive StepOut where
  | next (sleepMs : Nat) (s : LoopState)
  | finish (collected : List Msg)
  | fatalErr (collected : List Msg)
deriving DecidableEq, Repr

def fetchStep (oracle : Nat → FetchResp) (s : LoopState) : StepOut :=
  match oracle s.reqIx with
  | .page [] => .finish s.collected
  | .page (m :: rest) =>
      .next 200
        { collected := s.collected ++ (m :: rest),
          beforeId := some (((m :: rest).getLast (List.cons_ne_nil m rest)).id),
          reqIx := s.reqIx + 1 }
  | .rateLimited r =>
      .next (rateLimitSleepMs r) { s with reqIx := s.reqIx + 1 }
  | .httpErr => .finish s.collected
  | .fatal => .fatalErr s.collected

/-- The `while (allMessages.length < limit)` loop, with fuel.  Returns
`none` when the fuel runs out before the loop ends (the source imposes no
bound on 429 retries, so the loop need not terminate); otherwise the
collected list and whether a fatal error sent control to the outer catch. -/
def fetchLoop (oracle : Nat → FetchResp) (limit : Nat) :
    Nat → LoopState → Option (List Msg × Bool)
  | 0, _ => none
  | fuel + 1, s =>
    if s.collected.length < limit then
      match fetchStep oracle s with
      | .next _ s' => fetchLoop oracle limit fuel s'
      | .finish c => some (c, false)
      | .fatalErr c => some (c, true)
    else
      some (s.collected, false)

/-- `allMessages.sort((a, b) => tsA - tsB)`: a stable sort by timestamp
(ES2019 `Array.prototype.sort` is stable), embedded as insertion sort,
which is stable for the non-strict relation. -/
def sortByTs (l : List Msg) : List Msg :=
  l.insertionSort (fun a b => a.ts ≤ b.ts)

/-- `allMessages.filter((message, index, array) =>
array.findIndex(m => m.id === message.id) === index)`: keep exactly the
first occurrence of each id.  `seen` is the set of ids of elements kept
so far. -/
def dedupById (seen : List String) : List Msg → List Msg
  | [] => []
  | m :: rest =>
    if m.id ∈ seen then dedupById seen rest
    else m :: dedupById (m.id :: seen) rest

/-- Post-loop processing of `fetchMessages`:
sort by timestamp, dedupe by id, `uniqueMessages.slice(-limit)`. -/
def postprocess (limit : Nat) (l : List Msg) : List Msg :=
  jsSliceLast (dedupById [] (sortByTs l)) limit

/-- Outer-catch fallback: `MessageStore.getMessages(channelId)?._array`,
sorted by timestamp and sliced; `[]` when the cache has no array. -/
def fallbackResult (cache : Option (List Msg)) (limit : Nat) : List Msg :=
  match cache with
  | some arr => jsSliceLast (sortByTs arr) limit
  | none => []

/-- `fetchMessages(channelId, limit)` from a given loop state: run the
loop; on normal exit return the post-processed collected list, on a fatal
error return the MessageStore fallback.  `none` only when the fuel runs
out (the run has not returned yet). -/
def fetchMessagesFrom (oracle : Nat → FetchResp) (cache : Option (List Msg))
    (limit fuel : Nat) (s : LoopState) : Option (List Msg) :=
  match fetchLoop oracle limit fuel s with
  | none => none
  | some (c, false) => some (postprocess limit c)
  | some (_, true) => some (fallbackResult cache limit)

def initState : LoopState := ⟨[], none, 0⟩

def fetchMessages (oracle : Nat → FetchResp) (cache : Option (List Msg))
    (limit fuel : Nat) : Option (List Msg) :=
  fetchMessagesFrom oracle cache limit fuel initState

/-- The pagination loop terminates on some fuel. -/
def fetchTerminates (oracle : Nat → FetchResp) (limit : Nat) : Prop :=
  ∃ fuel r, fetchLoop oracle limit fuel initState = some r

/-! ### Bounded local store (aiagent conversation cache) -/

structure ConversationEntry where
  role : String
  content : String
  timestamp : Int
deriving DecidableEq, Repr

/-- `conversationCache`: the JS object mapping channel ids to entry
lists; a missing key is `none`. -/
def ConversationData : Type := String → Option (List ConversationEntry)

/-- The two settings read by `cleanupConversationHistory`.  JS numbers,
compared with `> 0`, hence `Int`. -/
structure AgentSettings where
  conversationHistoryDays : Int
  maxConversationHistory : Int
deriving DecidableEq, Repr

def emptyConversations : ConversationData := fun _ => none

def updateChannel (st : ConversationData) (ch : String)
    (l : List ConversationEntry) : ConversationData :=
  fun c => if c = ch then some l else st c

/-- Age phase of `cleanupConversationHistory`:
`conversation.filter(entry => entry.timestamp > cutoffTime)` with
`cutoffTime = now - days * 24 * 60 * 60 * 1000`.  (The source only
reassigns the channel when the length changed, which is observationally
the same list.) -/
def ageFiltered (days now : Int) (l : List ConversationEntry) :
    List ConversationEntry :=
  l.filter (fun e => now - days * 86400000 < e.timestamp)

/-- The two pruning phases of `cleanupConversationHistory` on one
channel's list: the age filter (when `conversationHistoryDays > 0`)
followed by `currentConversation.slice(-maxConversationHistory)` (when
`maxConversationHistory > 0` and the length read back from the cache —
i.e. the age-filtered list — exceeds it). -/
def cleanupList (cfg : AgentSettings) (now : Int)
    (conversation : List ConversationEntry) : List ConversationEntry :=
  let afterAge :=
    if 0 < cfg.conversationHistoryDays then
      ageFiltered cfg.conversationHistoryDays now conversation
    else conversation
  if 0 < cfg.maxConversationHistory ∧
      cfg.maxConversationHistory < (afterAge.length : Int) then
    jsSliceLast afterAge cfg.maxConversationHistory.toNat
  else afterAge

/-- `cleanupConversationHistory(channelId)`: early return when the
channel is absent or empty; otherwise both pruning phases on that
channel's list. -/
def cleanupConversationHistory (cfg : AgentSettings) (now : Int)
    (st : ConversationData) (ch : String) : ConversationData :=
  match st ch with
  | none => st
  | some conversation =>
    if conversation.length = 0 then st
    else updateChannel st ch (cleanupList cfg now conversation)

/-- `addToConversation(channelId, role, content)`: initialise a missing
channel to `[]`, push `{role, content, timestamp: Date.now()}`, then run
the cleanup on that channel.  The debounced save does not affect the
in-memory state. -/
def addToConversation (cfg : AgentSettings) (now : Int)
    (st : ConversationData) (ch role content : String) : ConversationData :=
  let base := (st ch).getD []
  let st' := updateChannel st ch (base ++ [⟨role, content, now⟩])
  cleanupConversationHistory cfg now st' ch

/-- `getConversationHistory(channelId)`:
`conversationCache[channelId] || []`. -/
def getConversationHistory (st : ConversationData) (ch : String) :
    List ConversationEntry :=
  (st ch).getD []

/-- `clearConversation(channelId)`: `delete conversationCache[channelId]`. -/
def clearConversation (st : ConversationData) (ch : String) : ConversationData :=
  fun c => if c = ch then none else st c

/-! ### Friend-note fetch with bounded retry (exportFriendNotes) -/

/-- Outcome of one `GET /users/@me/notes/{userId}` request. -/
inductive NoteResp where
  | ok (note : Option String)
  | rateLimited (retry_after : Option Nat)
  | err
deriving DecidableEq, Repr

/-- `fetchNoteWithRetry`'s `for` loop: at most `rem` further attempts;
a 429 sleeps and retries, any other failure (or exhaustion) yields
`null`.  Returns the result (`response.body?.note || null`) together
with the number of requests issued. -/
def noteLoop (oracle : Nat → NoteResp) : Nat → Nat → Option String × Nat
  | 0, used => (none, used)
  | rem + 1, used =>
    match oracle used with
    | .ok note => (truthyStr note, used + 1)
    | .rateLimited _ => noteLoop oracle rem (used + 1)
    | .err => (none, used + 1)

/-- `fetchNoteWithRetry(userId, maxRetries = 5)`. -/
def fetchNoteWithRetry (oracle : Nat → NoteResp) (maxRetries : Nat := 5) :
    Option String × Nat :=
  noteLoop oracle maxRetries 0

/-- Sleep before a note-fetch retry: `(retry_after * 1000) + 2000` ms
with `retry_after` defaulting to 5 (`?? 5`, so only `undefined` defaults). -/
def noteRetrySleepMs (retry_after : Option Nat) : Nat :=
  retry_after.getD 5 * 1000 + 2000

/-! ### `/exportmessages` count clamping (exportMessages) -/

/-- `Number(args[0]?.value) || 10` for an integer-or-missing argument:
a missing argument is `NaN`, hence falsy, and `0` is falsy. -/
def jsCountOr10 (v : Option Int) : Int :=
  match v with
  | none => 10
  | some x => if x = 0 then 10 else x

/-- `Math.min(Math.max(Number(args[0]?.value) || 10, 1), 10000)`. -/
def clampCount (v : Option Int) : Int :=
  min (max (jsCountOr10 v) 1) 10000

/-- The rejection test at the top of `exportMessages`:
`messageCount <= 0 || messageCount > 10000`. -/
def exportReject (messageCount : Int) : Bool :=
  messageCount ≤ 0 || 10000 < messageCount

/-! ### Message formatter (aiagent `formatMessage`)

`new Date(message.timestamp.toString()).toLocaleString()` depends on the
ambient locale and timezone, so the timestamp renderer is passed in as
an explicit function `render`; `MessageStore.getMessage` is the
reply-lookup collaborator `lookup`. -/

/-- A truthy `messageReference` / `message_reference` whose `message_id`
is truthy yields the reply id and the channel id used for the
`MessageStore.getMessage` lookup. -/
def refIdOf : Option MsgRef → Option (String × String)
  | some mr =>
    match truthyStr mr.message_id with
    | some rid => some (rid, mr.channel_id)
    | none => none
  | none => none

/-- Resolution of `referencedMessage`, of which only `.content` is read:
the inline `referenced_message`, else the camelCase reference looked up
in the batch then in the store, else the snake_case reference likewise. -/
def resolveReplyContent (m : Msg) (batch : List Msg)
    (lookup : String → String → Option Msg) : Option String :=
  match m.referenced_message with
  | some r => some r.content
  | none =>
    match refIdOf m.messageReference with
    | some (rid, cid) =>
      match batch.find? (fun msg => msg.id == rid) with
      | some found => some found.content
      | none => (lookup cid rid).map Msg.content
    | none =>
      match refIdOf m.message_reference with
      | some (rid, cid) =>
        match batch.find? (fun msg => msg.id == rid) with
        | some found => some found.content
        | none => (lookup cid rid).map Msg.content
      | none => none

/-- The reply clause appended to the author line.  The branch is entered
when `includeReplies && (referenced_message || messageReference ||
type === 19)`; a resolved message renders its content (`||
"[No text content]"` when empty), an unresolved one renders
`[Message not found]`. -/
def replySegment (m : Msg) (batch : List Msg)
    (lookup : String → String → Option Msg) (includeReplies : Bool) : String :=
  if includeReplies ∧
      (m.referenced_message.isSome ∨ m.messageReference.isSome ∨ m.type = 19) then
    match resolveReplyContent m batch lookup with
    | some c =>
      " (replying to: \"" ++ (if c = "" then "[No text content]" else c) ++ "\")"
    | none => " (replying to: [Message not found])"
  else ""

/-- `[${timestamp}] ${author.username}` plus `#${discriminator}` when the
discriminator is not `"0"`. -/
def authorHeader (render : Int → String) (m : Msg) : String :=
  "[" ++ render m.ts ++ "] " ++ m.username ++
    (if m.discriminator ≠ "0" then "#" ++ m.discriminator else "")

def attachmentLine (a : Attachment) : String :=
  "\n    - " ++ a.filename ++ " (" ++ a.url ++ ")"

def attachmentsPart (m : Msg) : String :=
  if 0 < m.attachments.length then
    "\n  Attachments:" ++ String.join (m.attachments.map attachmentLine)
  else ""

def embedLines (e : Embed) : String :=
  (match truthyStr e.rawTitle with
   | some t => "\n    Title: " ++ t
   | none => "") ++
  (match truthyStr e.rawDescription with
   | some d => "\n    Description: " ++ d
   | none => "") ++
  (match truthyStr e.url with
   | some u => "\n    URL: " ++ u
   | none => "")

def embedsPart (m : Msg) : String :=
  if 0 < m.embeds.length then
    "\n  Embeds:" ++ String.join (m.embeds.map embedLines)
  else ""

/-- `formatMessage(message, allMessages = [], includeReplies = true)`. -/
def formatMessage (render : Int → String) (m : Msg) (batch : List Msg)
    (includeReplies : Bool) (lookup : String → String → Option Msg) : String :=
  authorHeader render m ++ replySegment m batch lookup includeReplies ++
    ": " ++ m.content ++ attachmentsPart m ++ embedsPart m

/-! ### Spec-side recomposition used for the amended pruning contract -/

/-- The pruning contract as amended: the age phase (when max-age-days
is positive) keeps exactly the entries whose timestamp is strictly newer
than `now - days·86400000` — an entry exactly at the cutoff is dropped —
and the count phase keeps the most recent `maxCount` entries when the
age-filtered length exceeds it. -/
def pruneSpecAmended (days maxCount now : Int)
    (l : List ConversationEntry) : List ConversationEntry :=
  let afterAge :=
    if 0 < days then l.filter (fun e => now - days * 86400000 < e.timestamp)
    else l
  if 0 < maxCount ∧ maxCount < (afterAge.length : Int) then
    afterAge.drop (afterAge.length - maxCount.toNat)
  else afterAge

/-! ### Concrete oracles, messages and states used by witnesses and
counterexamples -/

instance : IsTotal Msg (fun a b => a.ts ≤ b.ts) := ⟨fun a b => Int.le_total a.ts b.ts⟩

instance : IsTrans Msg (fun a b => a.ts ≤ b.ts) := ⟨fun _ _ _ h1 h2 => le_trans h1 h2⟩

def const429 : Nat → FetchResp := fun _ => .rateLimited none

def httpOracle : Nat → FetchResp := fun _ => .httpErr

def fatalOracle : Nat → FetchResp := fun _ => .fatal

def oracle429zero : Nat → FetchResp := fun _ => .rateLimited (some 0)

def oracle429two : Nat → FetchResp := fun _ => .rateLimited (some 2)

def msgA : Msg := ⟨"a", 1, "u", "0", "one", none, none, none, 0, [], []⟩

def msgB : Msg := ⟨"b", 2, "u", "0", "two", none, none, none, 0, [], []⟩

def dupA1 : Msg := ⟨"a", 1, "u", "0", "x", none, none, none, 0, [], []⟩

def dupA2 : Msg := ⟨"a", 2, "u", "0", "y", none, none, none, 0, [], []⟩

def pagesOracle : Nat → FetchResp
  | 0 => .page [msgB, msgA]
  | _ + 1 => .page []

/-- Settings `maxConversationHistory = 3`, `conversationHistoryDays = 30`
(the default), for the five-append scenario. -/
def histSettings3 : AgentSettings := ⟨30, 3⟩

/-- An arbitrary concrete `Date.now()` instant. -/
def tNow : Int := 1735689600000

/-- An entry lying exactly at the age cutoff when pruned with
`conversationHistoryDays = 1` at `now = 86400000`. -/
def boundaryEntry : ConversationEntry := ⟨"user", "hi", 0⟩

def boundarySettings : AgentSettings := ⟨1, 0⟩

/-- A state holding one arbitrarily old entry on channel `"c"`. -/
def oldStore : ConversationData :=
  updateChannel emptyConversations "c" [⟨"user", "old", -999999999999⟩]

/-- A reply to `"r1"` (type 19) whose target is nowhere to be found. -/
def msgNF : Msg :=
  ⟨"m1", 5, "alice", "0", "hello", none, some ⟨some "r1", "chan"⟩, none, 19, [], []⟩

/-! ## Helper lemmas -/

theorem sortByTs_sorted (l : List Msg) :
    (sortByTs l).Pairwise (fun a b => a.ts ≤ b.ts) :=
  List.sorted_insertionSort _ l

theorem dedupById_sublist (seen : List String) (l : List Msg) :
    List.Sublist (dedupById seen l) l := by
  induction l generalizing seen with
  | nil => simp [dedupById]
  | cons m rest ih =>
    simp only [dedupById]
    split
    · exact (ih seen).cons m
    · exact (ih (m.id :: seen)).cons₂ m

theorem dedupById_ids (seen : List String) (l : List Msg) :
    ((dedupById seen l).map Msg.id).Nodup ∧
      ∀ x ∈ (dedupById seen l).map Msg.id, x ∉ seen := by
  induction l generalizing seen with
  | nil => simp [dedupById]
  | cons m rest ih =>
    simp only [dedupById]
    split
    · exact ih seen
    · rename_i hns
      obtain ⟨hn, hs⟩ := ih (m.id :: seen)
      refine ⟨?_, ?_⟩
      · simp only [List.map_cons, List.nodup_cons]
        exact ⟨fun hmem => (hs _ hmem) (List.mem_cons_self _ _), hn⟩
      · intro x hx hxseen
        simp only [List.map_cons, List.mem_cons] at hx
        rcases hx with rfl | hx
        · exact hns hxseen
        · exact hs x hx (List.mem_cons_of_mem _ hxseen)

theorem jsSliceLast_sublist (l : List α) (n : Nat) :
    List.Sublist (jsSliceLast l n) l := by
  unfold jsSliceLast
  split
  · exact List.Sublist.refl l
  · exact List.drop_sublist _ l

theorem jsSliceLast_suffix (l : List α) (n : Nat) :
    List.IsSuffix (jsSliceLast l n) l := by
  unfold jsSliceLast
  split
  · exact List.suffix_refl l
  · exact List.drop_suffix _ l

theorem length_jsSliceLast_le (l : List α) (n : Nat) (h : 0 < n) :
    (jsSliceLast l n).length ≤ n := by
  unfold jsSliceLast
  rw [if_neg (by omega), List.length_drop]
  omega

theorem getLast?_drop_of_lt : ∀ (l : List α) (k : Nat), k < l.length →
    (l.drop k).getLast? = l.getLast?
  | [], k, h => by simp at h
  | _ :: _, 0, _ => rfl
  | a :: t, k + 1, h => by
    have ht : k < t.length := by simpa using h
    rw [List.drop_succ_cons, getLast?_drop_of_lt t k ht]
    cases t with
    | nil => simp at ht
    | cons b t' => exact (List.getLast?_cons_cons).symm

theorem getLast?_jsSliceLast (l : List α) (n : Nat) (h : 0 < n) :
    (jsSliceLast l n).getLast? = l.getLast? := by
  unfold jsSliceLast
  rw [if_neg (by omega)]
  cases l with
  | nil => simp
  | cons a t =>
    exact getLast?_drop_of_lt _ _ (by simp [List.length_cons]; omega)

theorem fetchLoop_limit_zero (oracle : Nat → FetchResp) (fuel : Nat) (s : LoopState)
    (r : List Msg × Bool) (h : fetchLoop oracle 0 fuel s = some r) :
    r = (s.collected, false) := by
  cases fuel with
  | zero => simp [fetchLoop] at h
  | succ n =>
    simp only [fetchLoop] at h
    rw [if_neg (by omega)] at h
    exact (Option.some_inj.mp h).symm

theorem fetchLoop_const429 (limit : Nat) : ∀ (fuel : Nat) (s : LoopState),
    s.collected.length < limit → fetchLoop const429 limit fuel s = none
  | 0, _, _ => rfl
  | fuel + 1, s, h => by
    have hstep : fetchStep const429 s =
        .next (rateLimitSleepMs none) { s with reqIx := s.reqIx + 1 } := rfl
    simp only [fetchLoop, if_pos h, hstep]
    exact fetchLoop_const429 limit fuel _ h

theorem noteLoop_requests_le (oracle : Nat → NoteResp) :
    ∀ (rem used : Nat), (noteLoop oracle rem used).2 ≤ used + rem
  | 0, used => by simp [noteLoop]
  | rem + 1, used => by
    simp only [noteLoop]
    cases oracle used with
    | ok note => simp
    | rateLimited r =>
      have := noteLoop_requests_le oracle rem (used + 1)
      simpa using le_trans this (by omega)
    | err => simp

theorem get_updateChannel_same (st : ConversationData) (ch : String)
    (l : List ConversationEntry) :
    getConversationHistory (updateChannel st ch l) ch = l := by
  simp [getConversationHistory, updateChannel]

theorem cleanup_get (cfg : AgentSettings) (now : Int) (st : ConversationData)
    (ch : String) :
    getConversationHistory (cleanupConversationHistory cfg now st ch) ch =
      (if (getConversationHistory st ch).length = 0 then getConversationHistory st ch
       else cleanupList cfg now (getConversationHistory st ch)) := by
  unfold cleanupConversationHistory
  cases h : st ch with
  | none => simp [getConversationHistory, h]
  | some conv =>
    by_cases hl : conv.length = 0
    · simp [getConversationHistory, h, hl]
    · simp [getConversationHistory, h, hl, get_updateChannel_same, updateChannel]

theorem cleanupList_concat_getLast (cfg : AgentSettings) (now : Int)
    (base : List ConversationEntry) (e : ConversationEntry) (he : e.timestamp = now) :
    (cleanupList cfg now (base ++ [e])).getLast? = some e := by
  unfold cleanupList
  set afterAge : List ConversationEntry :=
    if 0 < cfg.conversationHistoryDays then
      ageFiltered cfg.conversationHistoryDays now (base ++ [e])
    else base ++ [e] with hAge
  have hAgeForm : afterAge = (if 0 < cfg.conversationHistoryDays then
      ageFiltered cfg.conversationHistoryDays now base else base) ++ [e] := by
    rw [hAge]
    by_cases hd : 0 < cfg.conversationHistoryDays
    · rw [if_pos hd, if_pos hd]
      unfold ageFiltered
      rw [List.filter_append]
      congr 1
      have hlt : now - cfg.conversationHistoryDays * 86400000 < now := by nlinarith
      simp [he, hlt]
    · rw [if_neg hd, if_neg hd]
  by_cases hc : 0 < cfg.maxConversationHistory ∧
      cfg.maxConversationHistory < (afterAge.length : Int)
  · rw [if_pos hc, getLast?_jsSliceLast _ _ (by omega), hAgeForm, List.getLast?_concat]
  · rw [if_neg hc, hAgeForm, List.getLast?_concat]

theorem cleanupList_eq_pruneSpec (cfg : AgentSettings) (now : Int)
    (l : List ConversationEntry) :
    cleanupList cfg now l =
      pruneSpecAmended cfg.conversationHistoryDays cfg.maxConversationHistory now l := by
  unfold cleanupList pruneSpecAmended ageFiltered jsSliceLast
  by_cases hd : 0 < cfg.conversationHistoryDays
  · simp only [if_pos hd]
    generalize (List.filter _ l : List ConversationEntry) = A
    by_cases hc : 0 < cfg.maxConversationHistory ∧
        cfg.maxConversationHistory < (A.length : Int)
    · simp only [if_pos hc]
      rw [if_neg (by omega)]
    · simp only [if_neg hc]
  · simp only [if_neg hd]
    by_cases hc : 0 < cfg.maxConversationHistory ∧
        cfg.maxConversationHistory < (l.length : Int)
    · simp only [if_pos hc]
      rw [if_neg (by omega)]
    · simp only [if_neg hc]

/-! ## Claim theorems -/

/-- C1: for every channel (oracle) and target count `limit`, a
`fetchMessages` run whose pagination loop returns normally yields exactly
the sorted-by-timestamp, deduplicated-by-id (first occurrence kept)
collected list cut to its last `limit` elements; the result has at most
`limit` messages, is chronologically nondecreasing, and its ids are
pairwise distinct. -/
theorem fetchMessages_sorted_unique_lastN
    (oracle : Nat → FetchResp) (cache : Option (List Msg)) (limit fuel : Nat)
    (c : List Msg) (h : fetchLoop oracle limit fuel initState = some (c, false)) :
    fetchMessages oracle cache limit fuel = some (postprocess limit c) ∧
    (postprocess limit c).length ≤ limit ∧
    (postprocess limit c).Pairwise (fun a b => a.ts ≤ b.ts) ∧
    ((postprocess limit c).map Msg.id).Nodup := by
  have hsub1 : List.Sublist (postprocess limit c) (dedupById [] (sortByTs c)) :=
    jsSliceLast_sublist _ _
  have hsub2 : List.Sublist (dedupById [] (sortByTs c)) (sortByTs c) :=
    dedupById_sublist _ _
  refine ⟨?_, ?_, ?_, ?_⟩
  · unfold fetchMessages fetchMessagesFrom
    rw [h]
  · by_cases hl : limit = 0
    · subst hl
      have hc : (c, false) = (initState.collected, false) :=
        fetchLoop_limit_zero oracle fuel initState _ h
      have : c = [] := congrArg Prod.fst hc
      subst this
      simp [postprocess, sortByTs, dedupById, jsSliceLast, List.insertionSort]
    · exact length_jsSliceLast_le _ _ (Nat.pos_of_ne_zero hl)
  · exact (sortByTs_sorted c).sublist (hsub1.trans hsub2)
  · exact ((dedupById_ids [] (sortByTs c)).1).sublist (hsub1.map Msg.id)

/-- Witness for C1 at a two-message page followed by an empty page. -/
theorem fetchMessages_sorted_unique_lastN_witness :
    fetchMessages pagesOracle none 2 3 = some (postprocess 2 [msgB, msgA]) ∧
    (postprocess 2 [msgB, msgA]).length ≤ 2 ∧
    (postprocess 2 [msgB, msgA]).Pairwise (fun a b => a.ts ≤ b.ts) ∧
    ((postprocess 2 [msgB, msgA]).map Msg.id).Nodup :=
  fetchMessages_sorted_unique_lastN pagesOracle none 2 3 [msgB, msgA] (by decide)

/-- C2 counterexample: with `conversationHistoryDays = 1` and
`now = 86400000` the cutoff is `0`; the stored entry with timestamp
exactly `0` is not strictly older than the cutoff, yet the prune drops
it (the filter keeps only strictly newer entries). -/
theorem cleanup_age_boundary_counterexample :
    getConversationHistory
      (cleanupConversationHistory boundarySettings 86400000
        (updateChannel emptyConversations "c" [boundaryEntry]) "c") "c" = [] ∧
    (boundaryEntry.timestamp <
      86400000 - boundarySettings.conversationHistoryDays * 86400000) = False :=
  ⟨by decide, eq_false (by decide)⟩

/-- C2 (amended): the prune applies the age filter first — when
max-age-days is positive it keeps exactly the entries with timestamp
strictly newer than `now - days·86400000`, so an entry exactly at the
cutoff is dropped — then the count filter keeps the most recent
max-count entries; with `maxConversationHistory = 3`, appending five
entries to an initially empty channel leaves exactly the last three in
their original relative order. -/
theorem cleanup_matches_amended_prune
    (cfg : AgentSettings) (now : Int) (st : ConversationData) (ch : String) :
    getConversationHistory (cleanupConversationHistory cfg now st ch) ch =
      pruneSpecAmended cfg.conversationHistoryDays cfg.maxConversationHistory now
        (getConversationHistory st ch) ∧
    getConversationHistory
      (addToConversation histSettings3 tNow
        (addToConversation histSettings3 tNow
          (addToConversation histSettings3 tNow
            (addToConversation histSettings3 tNow
              (addToConversation histSettings3 tNow emptyConversations "ch" "user" "one")
              "ch" "assistant" "two") "ch" "user" "three") "ch" "assistant" "four")
        "ch" "user" "five") "ch" =
      [⟨"user", "three", tNow⟩, ⟨"assistant", "four", tNow⟩, ⟨"user", "five", tNow⟩] := by
  constructor
  · rw [cleanup_get]
    by_cases he : (getConversationHistory st ch).length = 0
    · have hl : getConversationHistory st ch = [] := List.length_eq_zero.mp he
      rw [if_pos he, hl]
      unfold pruneSpecAmended
      simp
    · rw [if_neg he, cleanupList_eq_pruneSpec]
  · decide

/-- C3 counterexample: a 429 whose body carries `retry_after = 0` is
falsy in JS, so the code sleeps the 5000 ms default rather than the
server-specified 0 s (the aiagent variant adds no margin). -/
theorem fetch_rate_limit_zero_counterexample :
    fetchStep oracle429zero initState =
      .next 5000 { collected := [], beforeId := none, reqIx := 1 } ∧
    rateLimitSleepMs (some 0) = 5000 ∧
    ((0 : Nat) * 1000 = 5000) = False :=
  ⟨by decide, by decide, eq_false (by decide)⟩

/-- C3 (amended): on a 429 the fetcher sleeps `retry_after · 1000` ms
when `retry_after` is specified and nonzero and 5000 ms when it is
unspecified or zero (JS falsy default), then re-issues the identical
page request — same batch size and same `before` cursor, with the
collected list unchanged; for `retry_after = 2` the wait is exactly
2000 ms, hence at least 2000 ms. -/
theorem fetch_rate_limit_retry
    (oracle : Nat → FetchResp) (limit : Nat) (s : LoopState) (r : Option Nat)
    (h : oracle s.reqIx = .rateLimited r) :
    fetchStep oracle s = .next (rateLimitSleepMs r) { s with reqIx := s.reqIx + 1 } ∧
    pageReq limit { s with reqIx := s.reqIx + 1 } = pageReq limit s ∧
    rateLimitSleepMs r =
      (match r with
       | none => 5000
       | some x => if x = 0 then 5000 else x * 1000) ∧
    (∀ fuel, s.collected.length < limit →
      fetchLoop oracle limit (fuel + 1) s =
        fetchLoop oracle limit fuel { s with reqIx := s.reqIx + 1 }) ∧
    (r = some 2 → rateLimitSleepMs r = 2000 ∧ 2000 ≤ rateLimitSleepMs r) := by
  have hstep : fetchStep oracle s =
      .next (rateLimitSleepMs r) { s with reqIx := s.reqIx + 1 } := by
    unfold fetchStep
    rw [h]
  refine ⟨hstep, rfl, ?_, ?_, ?_⟩
  · unfold rateLimitSleepMs jsOrNat
    cases r with
    | none => rfl
    | some x =>
      by_cases hx : x = 0
      · simp [hx]
      · simp [hx]
  · intro fuel hlen
    simp only [fetchLoop, if_pos hlen, hstep]
  · rintro rfl
    exact ⟨rfl, by norm_num [rateLimitSleepMs, jsOrNat]⟩

/-- Witness for C3 (amended) at `retry_after = 2`. -/
theorem fetch_rate_limit_retry_witness :
    fetchStep oracle429two initState =
      .next (rateLimitSleepMs (some 2)) { collected := [], beforeId := none, reqIx := 1 } ∧
    rateLimitSleepMs (some 2) = 2000 ∧ 2000 ≤ rateLimitSleepMs (some 2) :=
  ⟨(fetch_rate_limit_retry oracle429two 5 initState (some 2) rfl).1,
   (fetch_rate_limit_retry oracle429two 5 initState (some 2) rfl).2.2.2.2 rfl⟩

/-- C4: a non-429 request failure makes the loop finish at once with the
messages collected so far, and `fetchMessages` returns their
sort/dedup/truncate post-processing — a defined (best-effort, possibly
empty) value, never an escaping exception. -/
theorem fetchMessages_abandons_on_error
    (oracle : Nat → FetchResp) (cache : Option (List Msg)) (limit fuel : Nat)
    (s : LoopState) (hlen : s.collected.length < limit)
    (herr : oracle s.reqIx = .httpErr) :
    fetchStep oracle s = .finish s.collected ∧
    fetchLoop oracle limit (fuel + 1) s = some (s.collected, false) ∧
    fetchMessagesFrom oracle cache limit (fuel + 1) s =
      some (postprocess limit s.collected) := by
  have hstep : fetchStep oracle s = .finish s.collected := by
    unfold fetchStep
    rw [herr]
  refine ⟨hstep, ?_, ?_⟩
  · simp only [fetchLoop, if_pos hlen, hstep]
  · unfold fetchMessagesFrom
    simp only [fetchLoop, if_pos hlen, hstep]

/-- Witness for C4: a first-request failure returns the empty
best-effort result. -/
theorem fetchMessages_abandons_on_error_witness :
    fetchStep httpOracle initState = .finish [] ∧
    fetchLoop httpOracle 1 1 initState = some ([], false) ∧
    fetchMessagesFrom httpOracle none 1 1 initState = some (postprocess 1 []) :=
  fetchMessages_abandons_on_error httpOracle none 1 0 initState (by decide) rfl

/-- C5 counterexample: when the whole operation aborts to the outer
catch, the MessageStore fallback is sorted and sliced but not
deduplicated — a cache holding two distinct messages with the same id
yields a result whose ids are not pairwise distinct. -/
theorem fetchMessages_fallback_dup_counterexample :
    fetchMessages fatalOracle (some [dupA2, dupA1]) 2 1 = some [dupA1, dupA2] ∧
    dupA1.id = dupA2.id ∧ dupA1 ≠ dupA2 ∧
    (([dupA1, dupA2].map Msg.id).Nodup = False) :=
  ⟨by decide, by decide, by decide, eq_false (by decide)⟩

/-- C5 (amended): on a fatal abort the fallback returns the cached
channel messages sorted by timestamp ascending and cut to the last
`limit` (a suffix of the sorted cache, of length at most `limit` when
`limit` is positive), or `[]` when the cache holds nothing; no
identifier deduplication is applied to the fallback. -/
theorem fetchMessages_fallback_sorted
    (oracle : Nat → FetchResp) (limit fuel : Nat) (arr c : List Msg)
    (h : fetchLoop oracle limit fuel initState = some (c, true)) :
    fetchMessages oracle (some arr) limit fuel =
      some (jsSliceLast (sortByTs arr) limit) ∧
    fetchMessages oracle none limit fuel = some [] ∧
    (jsSliceLast (sortByTs arr) limit).Pairwise (fun a b => a.ts ≤ b.ts) ∧
    (0 < limit → (jsSliceLast (sortByTs arr) limit).length ≤ limit) ∧
    List.IsSuffix (jsSliceLast (sortByTs arr) limit) (sortByTs arr) := by
  refine ⟨?_, ?_, ?_, ?_, ?_⟩
  · unfold fetchMessages fetchMessagesFrom
    rw [h]
    rfl
  · unfold fetchMessages fetchMessagesFrom
    rw [h]
    rfl
  · exact (sortByTs_sorted arr).sublist (jsSliceLast_sublist _ _)
  · intro hl
    exact length_jsSliceLast_le _ _ hl
  · exact jsSliceLast_suffix _ _

/-- Witness for C5 (amended) at a run whose first request aborts. -/
theorem fetchMessages_fallback_sorted_witness :
    fetchMessages fatalOracle (some [msgB, msgA]) 2 1 =
      some (jsSliceLast (sortByTs [msgB, msgA]) 2) ∧
    (jsSliceLast (sortByTs [msgB, msgA]) 2).length ≤ 2 :=
  ⟨(fetchMessages_fallback_sorted fatalOracle 2 1 [msgB, msgA] [] (by decide)).1,
   (fetchMessages_fallback_sorted fatalOracle 2 1 [msgB, msgA] [] (by decide)).2.2.2.1
     (by decide)⟩

/-- C6 counterexample: the pagination loop imposes no bound on 429
retries — under a server that always answers 429 it never returns, on
any fuel. -/
theorem fetch_429_retry_unbounded_counterexample :
    fetchTerminates const429 1 = False := by
  apply eq_false
  rintro ⟨fuel, r, hr⟩
  rw [fetchLoop_const429 1 fuel initState (by decide)] at hr
  exact Option.noConfusion hr

/-- C6 (amended): only the note fetch bounds its 429 retries — it issues
at most `maxRetries` (default 5) requests for every oracle — while the
pagination loop of `fetchMessages` retries 429 responses without bound
and does not terminate under a server that always answers 429. -/
theorem note_retry_bounded_pagination_not :
    (∀ (oracle : Nat → NoteResp) (maxRetries : Nat),
      (fetchNoteWithRetry oracle maxRetries).2 ≤ maxRetries) ∧
    (∀ fuel : Nat, fetchLoop const429 1 fuel initState = none) := by
  constructor
  · intro oracle maxRetries
    have := noteLoop_requests_le oracle maxRetries 0
    simpa [fetchNoteWithRetry] using this
  · intro fuel
    exact fetchLoop_const429 1 fuel initState (by decide)

/-- C7: an append followed immediately by a get on the same channel ends
in the appended entry (the in-memory cache is updated synchronously,
independent of any pending debounced save), and a get on a channel with
no entry yields the empty list, never null. -/
theorem addToConversation_get_last
    (cfg : AgentSettings) (now : Int) (st : ConversationData) (ch role content : String) :
    (getConversationHistory (addToConversation cfg now st ch role content) ch).getLast? =
      some ⟨role, content, now⟩ ∧
    getConversationHistory emptyConversations ch = [] ∧
    getConversationHistory (clearConversation st ch) ch = [] := by
  refine ⟨?_, rfl, by simp [getConversationHistory, clearConversation]⟩
  unfold addToConversation
  rw [cleanup_get, get_updateChannel_same, if_neg (by simp)]
  exact cleanupList_concat_getLast cfg now _ _ rfl

/-- C8: `conversationHistoryDays = 0` disables age pruning entirely —
the prune reduces to the count filter alone, the result is a suffix of
the stored list, and when the count filter does not apply
(`maxConversationHistory ≤ 0`) entries of any age survive unchanged. -/
theorem cleanup_zero_days (maxCount now : Int) (st : ConversationData) (ch : String) :
    getConversationHistory (cleanupConversationHistory ⟨0, maxCount⟩ now st ch) ch =
      (if 0 < maxCount ∧ maxCount < ((getConversationHistory st ch).length : Int)
       then jsSliceLast (getConversationHistory st ch) maxCount.toNat
       else getConversationHistory st ch) ∧
    List.IsSuffix
      (getConversationHistory (cleanupConversationHistory ⟨0, maxCount⟩ now st ch) ch)
      (getConversationHistory st ch) ∧
    (maxCount ≤ 0 →
      getConversationHistory (cleanupConversationHistory ⟨0, maxCount⟩ now st ch) ch =
        getConversationHistory st ch) := by
  have h1 : getConversationHistory (cleanupConversationHistory ⟨0, maxCount⟩ now st ch) ch =
      (if 0 < maxCount ∧ maxCount < ((getConversationHistory st ch).length : Int)
       then jsSliceLast (getConversationHistory st ch) maxCount.toNat
       else getConversationHistory st ch) := by
    rw [cleanup_get]
    by_cases he : (getConversationHistory st ch).length = 0
    · have hl : getConversationHistory st ch = [] := List.length_eq_zero.mp he
      rw [if_pos he, hl]
      rw [if_neg (by simp; omega)]
    · rw [if_neg he]
      unfold cleanupList ageFiltered
      simp only [lt_irrefl, if_neg, if_false]
  refine ⟨h1, ?_, ?_⟩
  · rw [h1]
    split
    · exact jsSliceLast_suffix _ _
    · exact List.suffix_refl _
  · intro hm
    rw [h1, if_neg (by omega)]

/-- Witness for C8: an arbitrarily old entry survives a zero-days prune
whose count filter is inactive. -/
theorem cleanup_zero_days_witness :
    getConversationHistory (cleanupConversationHistory ⟨0, -5⟩ 0 oldStore "c") "c" =
      getConversationHistory oldStore "c" :=
  (cleanup_zero_days (-5) 0 oldStore "c").2.2 (by decide)

/-- C9: `formatMessage` is a pure function of the message, the batch,
the reply-lookup collaborator (and the ambient timestamp renderer), and
a message carrying a reply reference whose target is absent from both
the batch and the lookup renders the author line with the literal suffix
`(replying to: [Message not found])` before the `:` and the body. -/
theorem formatMessage_reply_not_found
    (render : Int → String) (m : Msg) (batch : List Msg)
    (lookup : String → String → Option Msg) (rid cid : String)
    (h1 : m.referenced_message = none)
    (h2 : m.messageReference = some ⟨some rid, cid⟩)
    (h3 : rid ≠ "")
    (h4 : batch.find? (fun msg => msg.id == rid) = none)
    (h5 : lookup cid rid = none) :
    formatMessage render m batch true lookup =
      authorHeader render m ++ " (replying to: [Message not found])" ++ ": " ++
        m.content ++ attachmentsPart m ++ embedsPart m ∧
    (∀ (render' : Int → String) (m' : Msg) (batch' : List Msg)
        (lookup' : String → String → Option Msg),
      render' = render → m' = m → batch' = batch → lookup' = lookup →
      formatMessage render' m' batch' true lookup' =
        formatMessage render m batch true lookup) := by
  have hres : resolveReplyContent m batch lookup = none := by
    unfold resolveReplyContent refIdOf truthyStr
    rw [h1, h2]
    simp only [if_neg h3]
    rw [h4, h5]
    rfl
  have hseg : replySegment m batch lookup true = " (replying to: [Message not found])" := by
    unfold replySegment
    rw [if_pos ⟨rfl, Or.inr (Or.inl (by rw [h2]; rfl))⟩, hres]
  constructor
  · unfold formatMessage
    rw [hseg]
  · intro render' m' batch' lookup' e1 e2 e3 e4
    rw [e1, e2, e3, e4]

/-- Witness for C9 at a concrete dangling reply. -/
theorem formatMessage_reply_not_found_witness :
    formatMessage (fun _ => "T") msgNF [] true (fun _ _ => none) =
      "[T] alice (replying to: [Message not found]): hello" :=
  ((formatMessage_reply_not_found (fun _ => "T") msgNF [] (fun _ _ => none) "r1" "chan"
      rfl rfl (by decide) rfl rfl).1).trans (by decide)

/-- C10: the `/exportmessages` handler clamps every integer-or-missing
count into `[1, 10000]` (missing and `0` default to 10), so the
`count <= 0 || count > 10000` rejection branch of `exportMessages` is
unreachable from the command. -/
theorem exportmessages_count_clamped (v : Option Int) :
    1 ≤ clampCount v ∧ clampCount v ≤ 10000 ∧
    exportReject (clampCount v) = false ∧ clampCount none = 10 := by
  have hlo : 1 ≤ clampCount v := le_min (le_max_right _ _) (by norm_num)
  have hhi : clampCount v ≤ 10000 := min_le_right _ _
  refine ⟨hlo, hhi, ?_, by decide⟩
  unfold exportReject
  simp only [Bool.or_eq_false_iff, decide_eq_false_iff_not, not_lt, not_le]
  omega

end Equicord
